import Mathlib

/-!
Shallow embedding of `src/ApiTask.py`, a FastAPI CRUD service over a single
`expenses` table, together with proofs about its observable behaviour.

The persisted state is modelled as a `List Expense` (rows in storage order).
Calendar dates are modelled as day ordinals (`Nat`); SQL `REAL` amounts are
modelled as exact rationals. Each HTTP handler becomes a pure function from
the table (plus its inputs) to an `Except` result, returning the new table
where the handler mutates state. FastAPI's route matching (decorator order,
`{param}` path segments, integer validation of path parameters) is modelled
explicitly, because the service registers `GET /expenses/{expense_id}` before
`GET /expenses/summary`.
-/

namespace ApiTask

/-- Calendar dates, as day ordinals. -/
abbrev Date := Nat

/-- A persisted row of the `expenses` table
(`class Expense(Base)`, ApiTask.py lines 16-22). -/
structure Expense where
  id : Int
  title : String
  category : String
  amount : ℚ
  date : Date
deriving DecidableEq

/-- Request body of `POST /expenses/` (`class ExpenseCreate`, lines 33-37).
`date = none` models an omitted date field. -/
structure ExpenseCreate where
  title : String
  category : String
  amount : ℚ
  date : Option Date
deriving DecidableEq

/-- Request body of `PUT /expenses/{id}` (`class ExpenseUpdate`, lines 47-51).
`some v` models a field present in the request (pydantic
`dict(exclude_unset=True)` keeps exactly the present fields). -/
structure ExpenseUpdate where
  title : Option String
  category : Option String
  amount : Option ℚ
  date : Option Date
deriving DecidableEq

/-- The storage engine's id assignment for a fresh row (SQLite integer
primary key: one more than the largest id in use, 1 on an empty table). -/
def nextId (table : List Expense) : Int :=
  (table.map Expense.id).foldr max 0 + 1

/-- `create_expense` (lines 58-69): builds the row with
`date = expense.date or datetime.date.today()` (a `datetime.date` is always
truthy, so the supplied date wins and `today` is used only when the field is
absent), inserts it, and returns the persisted record.
`today` is the service's current date at call time. -/
def create_expense (table : List Expense) (req : ExpenseCreate) (today : Date) :
    Expense × List Expense :=
  let e : Expense :=
    { id := nextId table, title := req.title, category := req.category,
      amount := req.amount, date := req.date.getD today }
  (e, table ++ [e])

/-- The category-filter step of `get_expenses` (lines 73-75): Python's
`if category:` is false both for `None` and for the empty string, so an
empty-string filter is skipped entirely. -/
def filteredQuery (table : List Expense) (category : Option String) : List Expense :=
  match category with
  | some c => if c = "" then table else table.filter (fun e => decide (e.category = c))
  | none => table

/-- The sort step of `get_expenses` (lines 76-79): ascending by amount or by
date when requested, storage order otherwise. -/
def sortedQuery (l : List Expense) (sort : Option String) : List Expense :=
  if sort = some "amount" then l.mergeSort (fun a b => decide (a.amount ≤ b.amount))
  else if sort = some "date" then l.mergeSort (fun a b => decide (a.date ≤ b.date))
  else l

/-- `get_expenses` (lines 71-83): filter, sort, and raise 404 when the result
list is empty (`if not expenses`). -/
def get_expenses (table : List Expense) (category sort : Option String) :
    Except Nat (List Expense) :=
  let q := sortedQuery (filteredQuery table category) sort
  if q.isEmpty then Except.error 404 else Except.ok q

/-- `get_expense_by_id` (lines 85-90): `.first()` on the id filter,
404 when no row matches. -/
def get_expense_by_id (table : List Expense) (eid : Int) : Except Nat Expense :=
  match table.find? (fun e => decide (e.id = eid)) with
  | some e => Except.ok e
  | none => Except.error 404

/-- The `setattr` loop of `update_expense` (lines 97-98): every field present
in the request overwrites the row's value; absent fields keep the prior
value; `id` is not an `ExpenseUpdate` field and is never touched. -/
def applyUpdate (e : Expense) (u : ExpenseUpdate) : Expense :=
  { id := e.id, title := u.title.getD e.title, category := u.category.getD e.category,
    amount := u.amount.getD e.amount, date := u.date.getD e.date }

/-- In-place mutation of the first row matching the id, as the ORM session
does when the object returned by `.first()` is modified and committed. -/
def updateRow : List Expense → Int → ExpenseUpdate → List Expense
  | [], _, _ => []
  | e :: rest, eid, u =>
    if e.id = eid then applyUpdate e u :: rest else e :: updateRow rest eid u

/-- `update_expense` (lines 92-101): 404 with the table untouched when the id
is absent; otherwise applies the present fields to the matching row and
returns the updated record together with the new table. -/
def update_expense (table : List Expense) (eid : Int) (u : ExpenseUpdate) :
    Except Nat Expense × List Expense :=
  match table.find? (fun e => decide (e.id = eid)) with
  | none => (Except.error 404, table)
  | some e => (Except.ok (applyUpdate e u), updateRow table eid u)

/-- `delete_expense` (lines 103-110): 404 with the table untouched when the id
is absent; otherwise removes the row found by `.first()`. -/
def delete_expense (table : List Expense) (eid : Int) : Except Nat Unit × List Expense :=
  match table.find? (fun e => decide (e.id = eid)) with
  | none => (Except.error 404, table)
  | some _ => (Except.ok (), table.eraseP (fun e => decide (e.id = eid)))

/-- The SQL aggregate `SUM(amount) ... WHERE category = c`: total amount over
the rows of one category. -/
def categoryTotal (table : List Expense) (c : String) : ℚ :=
  ((table.filter (fun e => decide (e.category = c))).map Expense.amount).sum

/-- `get_summary` (lines 112-120): `GROUP BY category` with `SUM(amount)`,
one pair per distinct category, 404 when there are no groups
(`if not summary`). Group order is whatever the engine returns; the model
fixes one enumeration of the distinct categories. -/
def get_summary (table : List Expense) : Except Nat (List (String × ℚ)) :=
  let pairs := ((table.map Expense.category).dedup).map (fun c => (c, categoryTotal table c))
  if pairs.isEmpty then Except.error 404 else Except.ok pairs

/-- The six handlers of the app, in decorator order. -/
inductive Handler
  | createExpense
  | getExpenses
  | getExpenseById
  | updateExpense
  | deleteExpense
  | getSummary
deriving DecidableEq

/-- A segment of a route path: a literal, or a `{param}` placeholder
(Starlette compiles `{param}` to `[^/]+`, which requires a non-empty
segment). -/
inductive Seg
  | lit : String → Seg
  | param : Seg
deriving DecidableEq

def segMatch : Seg → String → Bool
  | Seg.lit s, t => s == t
  | Seg.param, t => !(t == "")

def pathMatch : List Seg → List String → Bool
  | [], [] => true
  | p :: ps, s :: ss => segMatch p s && pathMatch ps ss
  | _, _ => false

structure Route where
  method : String
  segs : List Seg
  handler : Handler

/-- The route table in the order the decorators register the handlers in
ApiTask.py: `POST /expenses/` (line 58), `GET /expenses/` (71),
`GET /expenses/{expense_id}` (85), `PUT /expenses/{expense_id}` (92),
`DELETE /expenses/{expense_id}` (103), `GET /expenses/summary` (112).
Paths are split on `/`, so `/expenses/` is `["expenses", ""]`. -/
def routes : List Route :=
  [ ⟨"POST", [Seg.lit "expenses", Seg.lit ""], Handler.createExpense⟩,
    ⟨"GET", [Seg.lit "expenses", Seg.lit ""], Handler.getExpenses⟩,
    ⟨"GET", [Seg.lit "expenses", Seg.param], Handler.getExpenseById⟩,
    ⟨"PUT", [Seg.lit "expenses", Seg.param], Handler.updateExpense⟩,
    ⟨"DELETE", [Seg.lit "expenses", Seg.param], Handler.deleteExpense⟩,
    ⟨"GET", [Seg.lit "expenses", Seg.lit "summary"], Handler.getSummary⟩ ]

/-- Starlette dispatch: the first registered route whose method and path
match wins. -/
def dispatch (method : String) (path : List String) : Option Handler :=
  (routes.find? (fun r => r.method == method && pathMatch r.segs path)).map Route.handler

def isDigit (c : Char) : Bool := decide ('0' ≤ c) && decide (c ≤ '9')

def digitsToNat (acc : Nat) : List Char → Option Nat
  | [] => some acc
  | c :: cs => if isDigit c then digitsToNat (acc * 10 + (c.toNat - 48)) cs else none

/-- FastAPI's validation of an `int` path parameter: the raw segment must be
a decimal integer, else the request is rejected with 422. -/
def parseInt (s : String) : Option Int :=
  match s.toList with
  | [] => none
  | '-' :: cs =>
    match cs with
    | [] => none
    | _ => (digitsToNat 0 cs).map (fun n => -(n : Int))
  | cs => (digitsToNat 0 cs).map (fun n => (n : Int))

/-- Status code of a GET request against the app: dispatch to the first
matching route, validate the path parameter where the route has one, then run
the handler. An unparseable `int` path parameter yields 422; an unmatched
path yields 404. -/
def getStatus (table : List Expense) (path : List String)
    (category sort : Option String) : Nat :=
  match dispatch "GET" path with
  | some Handler.getExpenses =>
    match get_expenses table category sort with
    | Except.ok _ => 200
    | Except.error n => n
  | some Handler.getExpenseById =>
    match path with
    | [_, seg] =>
      match parseInt seg with
      | none => 422
      | some i =>
        match get_expense_by_id table i with
        | Except.ok _ => 200
        | Except.error n => n
    | _ => 422
  | some Handler.getSummary =>
    match get_summary table with
    | Except.ok _ => 200
    | Except.error n => n
  | _ => 404

/-! ### Helper lemmas -/

theorem categoryTotal_nil (c : String) : categoryTotal [] c = 0 := rfl

theorem categoryTotal_cons (e : Expense) (t : List Expense) (c : String) :
    categoryTotal (e :: t) c =
      (if e.category = c then e.amount else 0) + categoryTotal t c := by
  by_cases h : e.category = c <;> simp [categoryTotal, h]

theorem sum_map_ite_single (cs : List String) (a : String) (q : ℚ)
    (hnd : cs.Nodup) (ha : a ∈ cs) :
    (cs.map (fun c => if a = c then q else 0)).sum = q := by
  induction cs with
  | nil => cases ha
  | cons c cs ih =>
    rw [List.nodup_cons] at hnd
    by_cases hac : a = c
    · subst hac
      have hz : (cs.map (fun c => if a = c then q else 0)).sum = 0 := by
        apply List.sum_eq_zero
        intro x hx
        rcases List.mem_map.mp hx with ⟨c', hc', hx'⟩
        have : a ≠ c' := fun h => hnd.1 (h ▸ hc')
        simpa [this] using hx'.symm
      simp [hz]
    · have ha' : a ∈ cs := by
        rcases List.mem_cons.mp ha with h | h
        · exact absurd h hac
        · exact h
      simp [hac, ih hnd.2 ha']

theorem sum_categoryTotal (cs : List String) (hnd : cs.Nodup) :
    ∀ table : List Expense, (∀ e ∈ table, e.category ∈ cs) →
      (cs.map (categoryTotal table)).sum = (table.map Expense.amount).sum := by
  intro table
  induction table with
  | nil =>
    intro _
    apply List.sum_eq_zero
    intro x hx
    rcases List.mem_map.mp hx with ⟨c, _, hx'⟩
    rw [← hx']
    rfl
  | cons e t ih =>
    intro hmem
    have h1 : ∀ x ∈ t, x.category ∈ cs := fun x hx => hmem x (List.mem_cons_of_mem _ hx)
    have h2 : e.category ∈ cs := hmem e (List.mem_cons_self _ _)
    calc (cs.map (categoryTotal (e :: t))).sum
        = (cs.map (fun c => (if e.category = c then e.amount else 0) + categoryTotal t c)).sum := by
          exact congrArg List.sum (List.map_congr_left (fun c _ => categoryTotal_cons e t c))
      _ = (cs.map (fun c => if e.category = c then e.amount else 0)).sum
            + (cs.map (categoryTotal t)).sum := List.sum_map_add
      _ = e.amount + (t.map Expense.amount).sum := by
          rw [sum_map_ite_single cs e.category e.amount hnd h2, ih h1]
      _ = ((e :: t).map Expense.amount).sum := by simp

theorem sortedQuery_perm (l : List Expense) (sort : Option String) :
    (sortedQuery l sort).Perm l := by
  unfold sortedQuery
  split_ifs <;> first | exact List.mergeSort_perm l _ | exact List.Perm.refl l

theorem sortedQuery_nil (sort : Option String) : sortedQuery [] sort = [] := by
  unfold sortedQuery
  split_ifs <;> simp

theorem updateRow_length (table : List Expense) (eid : Int) (u : ExpenseUpdate) :
    (updateRow table eid u).length = table.length := by
  induction table with
  | nil => rfl
  | cons e t ih =>
    by_cases h : e.id = eid <;> simp [updateRow, h, ih]

theorem updateRow_getElem?_of_ne (table : List Expense) (eid : Int) (u : ExpenseUpdate) :
    ∀ i : Nat, ∀ e : Expense, table[i]? = some e → e.id ≠ eid →
      (updateRow table eid u)[i]? = some e := by
  induction table with
  | nil =>
    intro i e hi _
    simp at hi
  | cons x t ih =>
    intro i e hi hne
    match i with
    | 0 =>
      simp at hi
      subst hi
      have hx : ¬ x.id = eid := hne
      simp [updateRow, hx]
    | i + 1 =>
      simp at hi
      by_cases hx : x.id = eid
      · simpa [updateRow, hx] using hi
      · simpa [updateRow, hx] using ih i e hi hne

theorem updateRow_mem_of_find? (table : List Expense) (eid : Int) (u : ExpenseUpdate)
    (e0 : Expense) (h : table.find? (fun e => decide (e.id = eid)) = some e0) :
    applyUpdate e0 u ∈ updateRow table eid u := by
  induction table with
  | nil => simp at h
  | cons x t ih =>
    by_cases hx : x.id = eid
    · rw [List.find?_cons_of_pos _ (by simpa using hx)] at h
      cases h
      simp [updateRow, hx]
    · rw [List.find?_cons_of_neg _ (by simpa using hx)] at h
      simp [updateRow, hx, ih h]

theorem find?_eraseP_of_nodup (table : List Expense) (eid : Int)
    (hnd : (table.map Expense.id).Nodup) :
    (table.eraseP (fun e => decide (e.id = eid))).find?
      (fun e => decide (e.id = eid)) = none := by
  induction table with
  | nil => rfl
  | cons x t ih =>
    simp only [List.map_cons, List.nodup_cons] at hnd
    by_cases hx : x.id = eid
    · rw [List.eraseP_cons_of_pos (by simpa using hx)]
      apply List.find?_eq_none.mpr
      intro e he
      have : e.id ≠ eid := by
        intro heq
        exact hnd.1 (by rw [hx, ← heq]; exact List.mem_map_of_mem Expense.id he)
      simpa using this
    · rw [List.eraseP_cons_of_neg (by simpa using hx)]
      rw [List.find?_cons_of_neg _ (by simpa using hx)]
      exact ih hnd.2

/-! ### Claims -/

/-- Claim C1, refuted by the code (route-ordering bug): on a persisted state
with one expense row, `GET /expenses/summary` is dispatched to
`get_expense_by_id` — the route `/expenses/{expense_id}` is registered
earlier and its `{expense_id}` segment captures the literal `summary` — and
the integer validation of that segment fails, so the request answers 422
rather than 200, even though `get_summary` itself would succeed with the
per-category summary on that same state. -/
theorem C1_summary_route_captured :
    dispatch "GET" ["expenses", "summary"] = some Handler.getExpenseById ∧
    getStatus [⟨1, "Lunch", "Food", 3, 1⟩] ["expenses", "summary"] none none = 422 ∧
    get_summary [⟨1, "Lunch", "Food", 3, 1⟩] = Except.ok [("Food", 3)] := by
  refine ⟨by decide, by decide, ?_⟩
  norm_num [get_summary, categoryTotal, List.dedup]

/-- Claim C2: whenever `get_summary` returns a list of pairs, there is one
pair per distinct category of the table, each pair's total equals the sum of
`amount` over the persisted rows of that category, and the totals sum to the
sum of `amount` over the whole table. -/
theorem C2_summary_totals (table : List Expense) (pairs : List (String × ℚ))
    (h : get_summary table = Except.ok pairs) :
    (∀ p ∈ pairs, p.2 = categoryTotal table p.1) ∧
    (pairs.map Prod.fst).Nodup ∧
    (∀ c : String, c ∈ pairs.map Prod.fst ↔ c ∈ table.map Expense.category) ∧
    (pairs.map Prod.snd).sum = (table.map Expense.amount).sum := by
  rw [get_summary] at h
  split at h
  · simp at h
  · rw [Except.ok.injEq] at h
    subst h
    refine ⟨?_, ?_, ?_, ?_⟩
    · intro p hp
      rcases List.mem_map.mp hp with ⟨c, _, hc⟩
      rw [← hc]
    · have : ((((table.map Expense.category).dedup).map
          (fun c => (c, categoryTotal table c))).map Prod.fst) =
          (table.map Expense.category).dedup := by
        rw [List.map_map]
        exact List.map_id _
      rw [this]
      exact List.nodup_dedup _
    · intro c
      rw [List.map_map]
      have hcomp : (Prod.fst ∘ fun c => (c, categoryTotal table c)) = id := rfl
      rw [hcomp, List.map_id]
      exact List.mem_dedup
    · rw [List.map_map]
      have hcomp : (Prod.snd ∘ fun c => (c, categoryTotal table c)) =
          categoryTotal table := rfl
      rw [hcomp]
      exact sum_categoryTotal _ (List.nodup_dedup _) table
        (fun e he => List.mem_dedup.mpr (List.mem_map_of_mem Expense.category he))

/-- Witness for C2 at a concrete table of two rows sharing one category. -/
theorem C2_summary_totals_witness :
    (([("Food", (7 : ℚ))]).map Prod.snd).sum =
      (([⟨1, "a", "Food", 3, 1⟩, ⟨2, "b", "Food", 4, 1⟩] : List Expense).map
        Expense.amount).sum :=
  (C2_summary_totals [⟨1, "a", "Food", 3, 1⟩, ⟨2, "b", "Food", 4, 1⟩] [("Food", 7)]
    (by norm_num [get_summary, categoryTotal, List.dedup])).2.2.2

/-- Claim C3: a successful partial update applies exactly the fields present
in the request to the matched row (the returned record takes the request's
value where a field is present and the prior value where it is absent, and
keeps its id), the updated record is persisted, and every position of the
table holding a row with a different id is unchanged. -/
theorem C3_partial_update (table : List Expense) (eid : Int) (u : ExpenseUpdate)
    (e0 r : Expense) (t' : List Expense)
    (h0 : table.find? (fun e => decide (e.id = eid)) = some e0)
    (h : update_expense table eid u = (Except.ok r, t')) :
    r.id = e0.id ∧
    r.title = u.title.getD e0.title ∧
    r.category = u.category.getD e0.category ∧
    r.amount = u.amount.getD e0.amount ∧
    r.date = u.date.getD e0.date ∧
    r ∈ t' ∧
    t'.length = table.length ∧
    (∀ i : Nat, ∀ e : Expense, table[i]? = some e → e.id ≠ eid → t'[i]? = some e) := by
  rw [update_expense.eq_def, h0] at h
  simp only [Prod.mk.injEq, Except.ok.injEq] at h
  obtain ⟨hr, ht⟩ := h
  subst hr
  subst ht
  refine ⟨rfl, rfl, rfl, rfl, rfl, ?_, ?_, ?_⟩
  · exact updateRow_mem_of_find? table eid u e0 h0
  · exact updateRow_length table eid u
  · exact updateRow_getElem?_of_ne table eid u

/-- Witness for C3: updating only `amount` on a one-row table leaves title,
category and date at their prior values and sets the new amount. -/
theorem C3_partial_update_witness :
    (⟨1, "Lunch", "Food", 7, 5⟩ : Expense).title = "Lunch" ∧
    (⟨1, "Lunch", "Food", 7, 5⟩ : Expense).category = "Food" ∧
    (⟨1, "Lunch", "Food", 7, 5⟩ : Expense).date = 5 ∧
    (⟨1, "Lunch", "Food", 7, 5⟩ : Expense).amount = 7 := by
  have h := C3_partial_update [⟨1, "Lunch", "Food", 3, 5⟩] 1 ⟨none, none, some 7, none⟩
    ⟨1, "Lunch", "Food", 3, 5⟩ ⟨1, "Lunch", "Food", 7, 5⟩ [⟨1, "Lunch", "Food", 7, 5⟩]
    rfl rfl
  exact ⟨h.2.1, h.2.2.1, h.2.2.2.2.1, h.2.2.2.1⟩

/-- Claim C4: updating an id that no persisted row carries answers 404 and
returns the table exactly as it was — no row created, no row altered. -/
theorem C4_update_missing_id (table : List Expense) (eid : Int) (u : ExpenseUpdate)
    (h : ∀ e ∈ table, e.id ≠ eid) :
    update_expense table eid u = (Except.error 404, table) := by
  have hf : table.find? (fun e => decide (e.id = eid)) = none :=
    List.find?_eq_none.mpr (fun e he => by simpa using h e he)
  rw [update_expense.eq_def, hf]

/-- Witness for C4 at id 9999 against a one-row table. -/
theorem C4_update_missing_id_witness :
    update_expense [⟨1, "Lunch", "Food", 3, 5⟩] 9999 ⟨some "x", none, none, none⟩ =
      (Except.error 404, [⟨1, "Lunch", "Food", 3, 5⟩]) :=
  C4_update_missing_id [⟨1, "Lunch", "Food", 3, 5⟩] 9999 ⟨some "x", none, none, none⟩
    (by decide)

/-- Claim C5: a list query whose result set is empty (the filter step matches
no row — sorting cannot change emptiness) raises 404 instead of returning an
empty sequence, and so does the summary over an empty table. -/
theorem C5_empty_results_are_errors (table1 table2 : List Expense)
    (category sort : Option String)
    (h1 : filteredQuery table1 category = [])
    (h2 : table2 = []) :
    get_expenses table1 category sort = Except.error 404 ∧
    get_summary table2 = Except.error 404 := by
  constructor
  · rw [get_expenses, h1, sortedQuery_nil]
    rfl
  · subst h2
    rfl

/-- Witness for C5: a filter matching no row, and the empty table. -/
theorem C5_empty_results_are_errors_witness :
    get_expenses [⟨1, "a", "Food", 3, 1⟩] (some "Transport") none = Except.error 404 ∧
    get_summary [] = Except.error 404 :=
  C5_empty_results_are_errors [⟨1, "a", "Food", 3, 1⟩] [] (some "Transport") none rfl rfl

/-- Claim C6: with a non-empty category filter `c`, a successful list call
returns exactly the persisted rows whose category equals `c` (the result is a
permutation of that filter, so membership holds in both directions and no row
of a different category appears). -/
theorem C6_category_filter_exact (table : List Expense) (c : String)
    (sort : Option String) (rows : List Expense) (hc : c ≠ "")
    (h : get_expenses table (some c) sort = Except.ok rows) :
    rows.Perm (table.filter (fun e => decide (e.category = c))) ∧
    (∀ e : Expense, e ∈ rows ↔ (e ∈ table ∧ e.category = c)) := by
  have hfq : filteredQuery table (some c) =
      table.filter (fun e => decide (e.category = c)) := by
    simp [filteredQuery, hc]
  rw [get_expenses] at h
  split at h
  · simp at h
  · rw [Except.ok.injEq] at h
    subst h
    have hperm : (sortedQuery (filteredQuery table (some c)) sort).Perm
        (table.filter (fun e => decide (e.category = c))) := by
      rw [hfq]
      exact sortedQuery_perm _ sort
    refine ⟨hperm, ?_⟩
    intro e
    rw [hperm.mem_iff, List.mem_filter]
    simp

/-- Witness for C6: filtering on "Food" over a two-category table yields
exactly the "Food" row. -/
theorem C6_category_filter_exact_witness :
    (⟨1, "a", "Food", 3, 1⟩ : Expense) ∈ ([⟨1, "a", "Food", 3, 1⟩] : List Expense) ∧
    (⟨2, "b", "Transport", 4, 2⟩ : Expense) ∉ ([⟨1, "a", "Food", 3, 1⟩] : List Expense) := by
  have h := C6_category_filter_exact
    [⟨1, "a", "Food", 3, 1⟩, ⟨2, "b", "Transport", 4, 2⟩] "Food" none
    [⟨1, "a", "Food", 3, 1⟩] (by decide) rfl
  constructor
  · exact (h.2 _).mpr ⟨by simp, rfl⟩
  · intro hmem
    exact absurd ((h.2 _).mp hmem).2 (by decide)

/-- Claim C7: a create call with the date omitted persists and returns a
record dated with the service's current date at call time; a supplied date is
persisted verbatim; the returned record is in the new table. -/
theorem C7_create_date_defaulting (table : List Expense) (req : ExpenseCreate)
    (today : Date) :
    (req.date = none → (create_expense table req today).1.date = today) ∧
    (∀ d : Date, req.date = some d → (create_expense table req today).1.date = d) ∧
    (create_expense table req today).1 ∈ (create_expense table req today).2 := by
  refine ⟨?_, ?_, ?_⟩
  · intro h
    simp [create_expense, h]
  · intro d h
    simp [create_expense, h]
  · simp [create_expense]

/-- Witness for C7: one create with the date omitted, one with a date. -/
theorem C7_create_date_defaulting_witness :
    (create_expense [] ⟨"Lunch", "Food", 3, none⟩ 42).1.date = 42 ∧
    (create_expense [] ⟨"Dinner", "Food", 4, some 7⟩ 42).1.date = 7 :=
  ⟨(C7_create_date_defaulting [] ⟨"Lunch", "Food", 3, none⟩ 42).1 rfl,
   (C7_create_date_defaulting [] ⟨"Dinner", "Food", 4, some 7⟩ 42).2.1 7 rfl⟩

/-- Claim C8 counterexample: the service performs no non-emptiness validation
(`ExpenseCreate` only requires `title` and `category` to be strings), so a
create call with empty title and empty category succeeds and persists a row
carrying the empty title and the empty category — the claim as stated is
false. -/
theorem C8_counterexample :
    (create_expense [] ⟨"", "", 5, some 1⟩ 1).1.title = "" ∧
    (create_expense [] ⟨"", "", 5, some 1⟩ 1).1.category = "" ∧
    (create_expense [] ⟨"", "", 5, some 1⟩ 1).1 ∈ (create_expense [] ⟨"", "", 5, some 1⟩ 1).2 :=
  ⟨rfl, rfl, by simp [create_expense]⟩

/-- Claim C8 as amended: every row persisted through create carries exactly
the title and category supplied in the request — which are required fields of
the request but may be empty strings, since creation enforces no
non-emptiness. -/
theorem C8_create_persists_given_fields (table : List Expense) (req : ExpenseCreate)
    (today : Date) :
    (create_expense table req today).1.title = req.title ∧
    (create_expense table req today).1.category = req.category ∧
    (create_expense table req today).1 ∈ (create_expense table req today).2 :=
  ⟨rfl, rfl, by simp [create_expense]⟩

/-- Claim C9: on a table whose ids are unique (the primary-key invariant),
deleting an id and then getting that id, with no intervening create, always
answers 404 — whether the delete found the row (it is removed) or not (the
table was already without it). -/
theorem C9_delete_then_get_not_found (table : List Expense) (eid : Int)
    (hnd : (table.map Expense.id).Nodup) :
    get_expense_by_id (delete_expense table eid).2 eid = Except.error 404 := by
  rw [delete_expense.eq_def]
  cases hf : table.find? (fun e => decide (e.id = eid)) with
  | none =>
    rw [get_expense_by_id.eq_def, hf]
  | some e =>
    rw [get_expense_by_id.eq_def, find?_eraseP_of_nodup table eid hnd]

/-- Witness for C9 on a concrete two-row table. -/
theorem C9_delete_then_get_not_found_witness :
    get_expense_by_id
      (delete_expense [⟨1, "a", "Food", 3, 1⟩, ⟨2, "b", "Transport", 4, 2⟩] 1).2 1 =
      Except.error 404 :=
  C9_delete_then_get_not_found [⟨1, "a", "Food", 3, 1⟩, ⟨2, "b", "Transport", 4, 2⟩] 1
    (by decide)

/-- Claim C10: Python's `if category:` is false for the empty string, so a
list call with the empty-string category filter is identical to a list call
with no category filter, for every table and sort key. -/
theorem C10_empty_string_filter_ignored (table : List Expense) (sort : Option String) :
    get_expenses table (some "") sort = get_expenses table none sort := rfl

end ApiTask
